import Mathlib

/-
Verification of the content-rotation engine of Dot-Crypto-Ticker.

Shallow embedding of the Python sources `src/app.py` and `src/main.py`:
Python floats are modelled as rationals (ℚ), fallible code as `Except`,
the background loop as explicit state passing over a trace of tick
outcomes.  String rendering of payloads is excluded from the model, as
the specification (§1) excludes rendering routines from its scope and
treats payloads as data records.
-/

/-! ## Python value model and `safe_float` (app.py lines 160-164) -/

/-- Model of a dynamically typed Python value as it can arrive from a
provider JSON body: `null` (also the result of `dict.get` on a missing
key), a number, a string, or any other non-numeric object. -/
inductive PyVal where
  | null : PyVal
  | num : ℚ → PyVal
  | str : String → PyVal
  | obj : PyVal
deriving Repr, DecidableEq

/-- Numeric value of a digit string, most significant digit first. -/
def digitsVal (cs : List Char) : ℕ :=
  cs.foldl (fun n c => n * 10 + (c.toNat - 48)) 0

/-- Parse an unsigned decimal literal `digits[.digits]`; `none` when the
characters do not form such a literal. -/
def parseDecimal (cs : List Char) : Option ℚ :=
  let intPart := cs.takeWhile Char.isDigit
  let rest := cs.dropWhile Char.isDigit
  match rest with
  | [] => if intPart.isEmpty then none else some (digitsVal intPart : ℚ)
  | '.' :: frac =>
      if frac.all Char.isDigit && (!intPart.isEmpty || !frac.isEmpty) then
        some ((digitsVal (intPart ++ frac) : ℚ) / ((10 : ℚ) ^ frac.length))
      else none
  | _ => none

/-- Parse an optionally signed decimal literal after trimming
whitespace, as Python's `float` does on a string. -/
def pyFloatOfString (s : String) : Option ℚ :=
  match s.trim.toList with
  | '+' :: cs => parseDecimal cs
  | '-' :: cs => (parseDecimal cs).map (fun q => -q)
  | cs => parseDecimal cs

/-- Model of the Python builtin `float(v)`: succeeds on numbers and on
strings holding a decimal literal, raises `TypeError`/`ValueError`
otherwise.  (Exotic literal forms such as exponents are modelled as
failures; every constructor is still handled totally.) -/
def py_float (v : PyVal) : Except String ℚ :=
  match v with
  | PyVal.null => Except.error "TypeError"
  | PyVal.num q => Except.ok q
  | PyVal.str s =>
      match pyFloatOfString s with
      | some q => Except.ok q
      | none => Except.error "ValueError"
  | PyVal.obj => Except.error "TypeError"

/-- Embedding of `safe_float` (app.py lines 160-164): try `float(v)`,
return the default on any exception. -/
def safe_float (v : PyVal) (default : Option ℚ) : Option ℚ :=
  match py_float v with
  | Except.ok q => some q
  | Except.error _ => default

/-! ## RSI (app.py lines 178-207, `calculate_rsi`) -/

/-- Gain of one delta: `d if d > 0 else 0.0` (app.py line 189). -/
def gainPart (d : ℚ) : ℚ := if 0 < d then d else 0

/-- Loss of one delta: `-d if d < 0 else 0.0` (app.py line 190). -/
def lossPart (d : ℚ) : ℚ := if d < 0 then -d else 0

/-- One step of Wilder's smoothing:
`avg = (avg * (period - 1) + v) / period` (app.py lines 198-199). -/
def wilderStep (period : ℕ) (avg v : ℚ) : ℚ :=
  (avg * ((period : ℚ) - 1) + v) / (period : ℚ)

/-- Successive deltas `prices[i] - prices[i-1]` for `i = 1 .. len-1`
(app.py lines 184-186). -/
def rsiDeltas (prices : List ℚ) : List ℚ :=
  List.zipWith (fun a b => a - b) prices.tail prices

/-- Gains list of `calculate_rsi` (app.py line 189). -/
def rsiGains (prices : List ℚ) : List ℚ := (rsiDeltas prices).map gainPart

/-- Losses list of `calculate_rsi` (app.py line 190). -/
def rsiLosses (prices : List ℚ) : List ℚ := (rsiDeltas prices).map lossPart

/-- Seed with the simple mean of the first `period` values, then apply
Wilder's smoothing over the remaining values (app.py lines 193-199). -/
def wilderAvg (period : ℕ) (vals : List ℚ) : ℚ :=
  (vals.drop period).foldl (wilderStep period) ((vals.take period).sum / (period : ℚ))

/-- Rounding to two decimal places, modelling `round(rsi, 2)`
(app.py line 207). -/
def round2 (q : ℚ) : ℚ := ((round (q * 100) : ℤ) : ℚ) / 100

/-- Embedding of `calculate_rsi` (app.py lines 178-207): `none` when
fewer than `period + 1` closes, otherwise Wilder's RSI of the closes;
the Python locals `avg_gain`/`avg_loss` are the two `wilderAvg`
values. -/
def calculate_rsi (prices : List ℚ) (period : ℕ) : Option ℚ :=
  if prices.length < period + 1 then none
  else if wilderAvg period (rsiLosses prices) = 0 then some 100
  else some (round2 (100 - 100 /
    (1 + wilderAvg period (rsiGains prices) / wilderAvg period (rsiLosses prices))))

/-! ## Spec transcription of the RSI algorithm (spec.md §4.3) -/

/-- Successive deltas `closes[i] - closes[i-1]`, written as the direct
pairwise recursion of the specification text. -/
def specDeltas : List ℚ → List ℚ
  | a :: b :: rest => (b - a) :: specDeltas (b :: rest)
  | _ => []

/-- Final `(avgGain, avgLoss)` pair of the specification text: seeded
with the simple means of the first `period` gains/losses, then updated
jointly per remaining delta by `avg = (avg*(period-1) + value)/period`. -/
def specSmoothed (closes : List ℚ) (period : ℕ) : ℚ × ℚ :=
  ((specDeltas closes).drop period).foldl
    (fun avgs d => (wilderStep period avgs.1 (gainPart d), wilderStep period avgs.2 (lossPart d)))
    ((((specDeltas closes).take period).map gainPart).sum / (period : ℚ),
     (((specDeltas closes).take period).map lossPart).sum / (period : ℚ))

/-- Transcription of spec.md §4.3: fail soft below `period + 1` closes;
split the deltas into gains and losses; smooth them via `specSmoothed`;
result `100` when `avgLoss = 0`, else `100 - 100/(1 + avgGain/avgLoss)`
rounded to two decimals. -/
def rsiSpec (closes : List ℚ) (period : ℕ) : Option ℚ :=
  if closes.length < period + 1 then none
  else if (specSmoothed closes period).2 = 0 then some 100
  else some (round2 (100 - 100 /
    (1 + (specSmoothed closes period).1 / (specSmoothed closes period).2)))

/-! ## Weather icon resolver (app.py lines 98-154) -/

/-- Core if-chain of `meteo_code_to_icon_key` (app.py lines 108-149),
mapping a known weather code to its day or night icon key and every
unknown code to "na". -/
def iconKeyFor (c : ℤ) (night : Bool) : String :=
  if c = 0 then (if night then "night-clear" else "day-sunny")
  else if c = 1 then (if night then "night-alt-partly-cloudy" else "day-sunny-overcast")
  else if c = 2 then (if night then "night-alt-partly-cloudy" else "day-cloudy")
  else if c = 3 then (if night then "night-alt-cloudy" else "cloudy")
  else if c = 45 ∨ c = 48 then (if night then "night-fog" else "day-fog")
  else if c = 51 ∨ c = 53 ∨ c = 55 then (if night then "night-alt-sprinkle" else "day-sprinkle")
  else if c = 56 ∨ c = 57 then (if night then "night-alt-sleet" else "day-sleet")
  else if c = 61 ∨ c = 63 then (if night then "night-alt-rain" else "day-rain")
  else if c = 65 then (if night then "night-alt-rain-wind" else "day-rain-wind")
  else if c = 66 ∨ c = 67 then (if night then "night-alt-sleet" else "day-sleet")
  else if c = 71 ∨ c = 73 ∨ c = 75 then (if night then "night-alt-snow" else "day-snow")
  else if c = 77 then "snow"
  else if c = 80 ∨ c = 81 ∨ c = 82 then (if night then "night-alt-showers" else "day-showers")
  else if c = 85 ∨ c = 86 then (if night then "night-alt-snow" else "day-snow")
  else if c = 95 then (if night then "night-alt-thunderstorm" else "day-thunderstorm")
  else if c = 96 ∨ c = 99 then (if night then "night-alt-hail" else "day-hail")
  else "na"

/-- Weather codes handled by a branch of the if-chain of
`meteo_code_to_icon_key`; every other code falls through to "na". -/
def mappedMeteoCodes : List ℤ :=
  [0, 1, 2, 3, 45, 48, 51, 53, 55, 56, 57, 61, 63, 65, 66, 67,
   71, 73, 75, 77, 80, 81, 82, 85, 86, 95, 96, 99]

/-- Embedding of `meteo_code_to_icon_key` (app.py lines 103-149).  The
ambient wall-clock reading `is_night_vn()` is passed explicitly as
`isNightVN`; the function computes
`night = False if day_only else is_night_vn()` (line 106) and then runs
the if-chain. -/
def meteo_code_to_icon_key (code : Option ℤ) (day_only : Bool) (isNightVN : Bool) : String :=
  match code with
  | none => "na"
  | some c => iconKeyFor c (if day_only then false else isNightVN)

/-! ## Rotation scheduler loop (app.py lines 341-464, `ticker_loop`) -/

/-- Display payload handed to the sender, modelled as a data record per
spec.md §1/§3 (string rendering of the body is display-layer and out of
scope): title plus the numeric fields of a price tick. -/
structure DisplayPayload where
  title : String
  price : Option ℚ
  change : Option ℚ
  rsi4h : Option ℚ
  rsi1d : Option ℚ
deriving Repr, DecidableEq

/-- Rotation sequence `seq = ["BTC", "ETH", "WEATHER", "DAY"]`
(app.py line 360). -/
def rotationSeq : List String := ["BTC", "ETH", "WEATHER", "DAY"]

/-- Kind selected at the top of a tick: `seq[idx % len(seq)]`
(app.py line 365). -/
def selectKind (seq : List String) (idx : ℕ) : Option String :=
  seq[idx % seq.length]?

/-- Outcome of the try-block of one tick: build the content, and when
the build succeeds push it; the first raised error is the tick's
error (app.py lines 368-455). -/
def tickOutcome (build : Except String DisplayPayload)
    (push : DisplayPayload → Except String Unit) : Except String Unit :=
  match build with
  | Except.error e => Except.error e
  | Except.ok pl => push pl

/-- Effect of one tick on the rotation index with the except-clause at
the tick boundary: `idx += 1` only on success (app.py lines 457-462),
any error is caught and leaves `idx` unchanged. -/
def caughtTick (idx : ℕ) (outcome : Except String Unit) : ℕ :=
  match outcome with
  | Except.ok _ => idx + 1
  | Except.error _ => idx

/-- Rotation index after running the loop over a trace of tick
outcomes. -/
def runTicks (outcomes : List (Except String Unit)) (idx : ℕ) : ℕ :=
  outcomes.foldl caughtTick idx

/-- States of the loop after each executed tick of a trace: the loop
body always completes (success or caught failure) and proceeds to the
next tick (app.py lines 364-464). -/
def runLoopStates (outcomes : List (Except String Unit)) (idx : ℕ) : List ℕ :=
  match outcomes with
  | [] => []
  | o :: rest =>
      let nxt := caughtTick idx o
      nxt :: runLoopStates rest nxt

/-! ## BTC price build branch (app.py lines 238-253 and 371-383) -/

/-- Raw Binance 24hr ticker fields as read from the response body
(`data.get("lastPrice")`, `data.get("priceChangePercent")`); a missing
key reads as `null`. -/
structure RawTicker where
  lastPrice : PyVal
  priceChangePercent : PyVal

/-- Result of `fetch_binance_symbol` (app.py lines 248-253): parsed
price and change via `safe_float(_, None)` plus the two RSI values. -/
structure ParsedTicker where
  price : Option ℚ
  change_percent : Option ℚ
  rsi_4h : Option ℚ
  rsi_1d : Option ℚ

/-- Parsing step of `fetch_binance_symbol` (app.py lines 248-253). -/
def parse_binance (raw : RawTicker) (rsi4 rsi1 : Option ℚ) : ParsedTicker :=
  { price := safe_float raw.lastPrice none
    change_percent := safe_float raw.priceChangePercent none
    rsi_4h := rsi4
    rsi_1d := rsi1 }

/-- BTC branch of the tick body before the sender call (app.py lines
371-382): raise "BTC price missing" when the parsed price is absent,
otherwise assemble the payload. -/
def buildBTC (d : ParsedTicker) : Except String DisplayPayload :=
  match d.price with
  | none => Except.error "BTC price missing"
  | some p =>
      Except.ok
        { title := "BTC", price := some p, change := d.change_percent,
          rsi4h := d.rsi_4h, rsi1d := d.rsi_1d }

/-- One BTC tick with sender-invocation tracking: returns the rotation
index after the tick and whether `send_to_dot_text_api` was called
(app.py lines 371-383 and 457-462). -/
def btcTickRun (d : ParsedTicker) (push : DisplayPayload → Except String Unit)
    (idx : ℕ) : ℕ × Bool :=
  match buildBTC d with
  | Except.error _ => (idx, false)
  | Except.ok pl =>
      match push pl with
      | Except.ok _ => (idx + 1, true)
      | Except.error _ => (idx, true)

/-! ## Interval clamps (app.py lines 345-348, main.py line 127) -/

/-- Interval clamp of app.py's `ticker_loop` (lines 345-348):
`if interval < 30: interval = 30`. -/
def app_interval_clamp (configured : ℤ) : ℤ :=
  if configured < 30 then 30 else configured

/-- Interval clamp of main.py's `ticker_loop` (line 127):
`max(int(os.getenv("INTERVAL_SECS", "600")), 2)`. -/
def main_interval_clamp (configured : ℤ) : ℤ :=
  max configured 2

/-- Concrete payload used to instantiate sender-facing statements. -/
def payload0 : DisplayPayload :=
  { title := "BTC", price := none, change := none, rsi4h := none, rsi1d := none }

/-- Always-succeeding sender used to instantiate sender-facing
statements. -/
def pushOk : DisplayPayload → Except String Unit := fun _ => Except.ok ()

/-! ## Helper lemmas -/

theorem runTicks_replicate_ok (i idx : ℕ) :
    runTicks (List.replicate i (Except.ok ())) idx = idx + i := by
  induction i generalizing idx with
  | zero => rfl
  | succ k ih =>
      rw [List.replicate_succ]
      show runTicks (List.replicate k (Except.ok ())) (idx + 1) = idx + (k + 1)
      rw [ih]
      omega

theorem runLoopStates_length (outcomes : List (Except String Unit)) (idx : ℕ) :
    (runLoopStates outcomes idx).length = outcomes.length := by
  induction outcomes generalizing idx with
  | nil => rfl
  | cons o rest ih => simp [runLoopStates, ih]

theorem specDeltas_eq_rsiDeltas (prices : List ℚ) :
    specDeltas prices = rsiDeltas prices := by
  induction prices with
  | nil => rfl
  | cons a t ih =>
      cases t with
      | nil => rfl
      | cons b r =>
          show (b - a) :: specDeltas (b :: r) = rsiDeltas (a :: b :: r)
          rw [ih]
          rfl

theorem foldl_wilder_pair (k : ℕ) (l : List ℚ) (a b : ℚ) :
    l.foldl (fun avgs d => (wilderStep k avgs.1 (gainPart d), wilderStep k avgs.2 (lossPart d)))
        (a, b)
      = ((l.map gainPart).foldl (wilderStep k) a, (l.map lossPart).foldl (wilderStep k) b) := by
  induction l generalizing a b with
  | nil => rfl
  | cons x t ih => simpa using ih (wilderStep k a (gainPart x)) (wilderStep k b (lossPart x))

theorem rsiDeltas_length (prices : List ℚ) :
    (rsiDeltas prices).length = prices.length - 1 := by
  simp [rsiDeltas]

theorem rsiDeltas_cons₂ (a b : ℚ) (r : List ℚ) :
    rsiDeltas (a :: b :: r) = (b - a) :: rsiDeltas (b :: r) := rfl

theorem rsiDeltas_pos_of_chain (l : List ℚ) (h : List.Chain' (· < ·) l) :
    ∀ d ∈ rsiDeltas l, 0 < d := by
  induction l with
  | nil => intro d hd; simp [rsiDeltas] at hd
  | cons a t ih =>
      cases t with
      | nil => intro d hd; simp [rsiDeltas] at hd
      | cons b r =>
          rw [List.chain'_cons] at h
          intro d hd
          rw [rsiDeltas_cons₂] at hd
          rcases List.mem_cons.mp hd with h1 | h2
          · subst h1; linarith [h.1]
          · exact ih h.2 d h2

theorem rsiDeltas_neg_of_chain (l : List ℚ) (h : List.Chain' (· > ·) l) :
    ∀ d ∈ rsiDeltas l, d < 0 := by
  induction l with
  | nil => intro d hd; simp [rsiDeltas] at hd
  | cons a t ih =>
      cases t with
      | nil => intro d hd; simp [rsiDeltas] at hd
      | cons b r =>
          rw [List.chain'_cons] at h
          intro d hd
          rw [rsiDeltas_cons₂] at hd
          rcases List.mem_cons.mp hd with h1 | h2
          · subst h1; have := h.1; simp only [gt_iff_lt] at this; linarith
          · exact ih h.2 d h2

theorem wilderAvg_of_all_zero (k : ℕ) (vals : List ℚ) (h : ∀ x ∈ vals, x = 0) :
    wilderAvg k vals = 0 := by
  unfold wilderAvg
  have hsum : (vals.take k).sum = 0 :=
    List.sum_eq_zero (fun x hx => h x (List.mem_of_mem_take hx))
  rw [hsum, zero_div]
  have hdrop : ∀ x ∈ vals.drop k, x = 0 := fun x hx => h x (List.mem_of_mem_drop hx)
  generalize vals.drop k = rest at hdrop
  induction rest with
  | nil => rfl
  | cons y t ih =>
      have hy : y = 0 := hdrop y (List.mem_cons_self y t)
      have hstep : wilderStep k 0 y = 0 := by
        rw [hy]; simp [wilderStep]
      simp only [List.foldl_cons, hstep]
      exact ih (fun x hx => hdrop x (List.mem_cons_of_mem y hx))

theorem wilder_foldl_pos (k : ℕ) (hk : 0 < k) (l : List ℚ) (a : ℚ) (ha : 0 < a)
    (h : ∀ x ∈ l, 0 < x) : 0 < l.foldl (wilderStep k) a := by
  induction l generalizing a with
  | nil => exact ha
  | cons y t ih =>
      have hy : 0 < y := h y (List.mem_cons_self y t)
      have hk1 : (1 : ℚ) ≤ (k : ℚ) := by exact_mod_cast hk
      have hstep : 0 < wilderStep k a y := by
        unfold wilderStep
        apply div_pos
        · have : 0 ≤ a * ((k : ℚ) - 1) := mul_nonneg (le_of_lt ha) (by linarith)
          linarith
        · linarith
      simp only [List.foldl_cons]
      exact ih (wilderStep k a y) hstep (fun x hx => h x (List.mem_cons_of_mem y hx))

theorem wilderAvg_pos (k : ℕ) (hk : 0 < k) (vals : List ℚ) (hlen : k ≤ vals.length)
    (h : ∀ x ∈ vals, 0 < x) : 0 < wilderAvg k vals := by
  unfold wilderAvg
  have htake : (vals.take k).length = k := by
    rw [List.length_take]; omega
  have hne : vals.take k ≠ [] := by
    intro hcon
    rw [hcon] at htake
    simp at htake
    omega
  have hpos : ∀ x ∈ vals.take k, 0 < x := fun x hx => h x (List.mem_of_mem_take hx)
  have hsum : 0 < (vals.take k).sum := List.sum_pos _ hpos hne
  have hkq : (0 : ℚ) < (k : ℚ) := by exact_mod_cast hk
  exact wilder_foldl_pos k hk _ _ (div_pos hsum hkq)
    (fun x hx => h x (List.mem_of_mem_drop hx))

theorem iconKeyFor_unmapped (c : ℤ) (n : Bool) (h : c ∉ mappedMeteoCodes) :
    iconKeyFor c n = "na" := by
  simp only [mappedMeteoCodes, List.mem_cons, List.not_mem_nil, or_false, not_or] at h
  obtain ⟨h0, h1, h2, h3, h45, h48, h51, h53, h55, h56, h57, h61, h63, h65, h66, h67,
    h71, h73, h75, h77, h80, h81, h82, h85, h86, h95, h96, h99⟩ := h
  simp [iconKeyFor, h0, h1, h2, h3, h45, h48, h51, h53, h55, h56, h57, h61, h63, h65, h66,
    h67, h71, h73, h75, h77, h80, h81, h82, h85, h86, h95, h96, h99]

/-! ## Claim theorems -/

/-- C1: the rotation index advances by exactly one (so the cursor
`idx % len(seq)` advances by one mod the sequence length) after a tick
whose outcome is a success, and only then: a tick whose build-and-push
outcome is an error leaves the index unchanged, so the kind selected at
the next tick equals the kind that just failed; a tick outcome is a
success exactly when both build and push succeeded; and after `i < n`
consecutive successful ticks from index 0 the kind selected at tick `i`
is `sequence[i mod len]`, wrapping after the `len`-th success. -/
theorem rotation_cursor_correct (seq : List String) (idx n i : ℕ) (e : String)
    (b : Except String DisplayPayload) (push : DisplayPayload → Except String Unit) (u : Unit)
    (hseq : seq ≠ []) (hi : i < n) :
    caughtTick idx (Except.ok ()) = idx + 1
    ∧ caughtTick idx (Except.ok ()) % seq.length = (idx % seq.length + 1) % seq.length
    ∧ caughtTick idx (Except.error e) = idx
    ∧ selectKind seq (caughtTick idx (Except.error e)) = selectKind seq idx
    ∧ (tickOutcome b push = Except.ok u → ∃ pl, b = Except.ok pl ∧ push pl = Except.ok u)
    ∧ selectKind seq (runTicks (List.replicate i (Except.ok ())) 0) = seq[i % seq.length]? := by
  refine ⟨rfl, ?_, rfl, rfl, ?_, ?_⟩
  · show (idx + 1) % seq.length = (idx % seq.length + 1) % seq.length
    rw [Nat.mod_add_mod]
  · intro hok
    cases b with
    | error e2 => simp [tickOutcome] at hok
    | ok pl => exact ⟨pl, rfl, hok⟩
  · rw [runTicks_replicate_ok, Nat.zero_add]
    rfl

/-- Witness for C1 at the concrete rotation sequence of app.py, index 5,
a failing tick error "boom", and an always-succeeding build and push. -/
theorem rotation_cursor_correct_witness :
    rotationSeq ≠ [] ∧ 5 < 6
    ∧ (caughtTick 5 (Except.ok ()) = 5 + 1
      ∧ caughtTick 5 (Except.ok ()) % rotationSeq.length
          = (5 % rotationSeq.length + 1) % rotationSeq.length
      ∧ caughtTick 5 (Except.error "boom") = 5
      ∧ selectKind rotationSeq (caughtTick 5 (Except.error "boom")) = selectKind rotationSeq 5
      ∧ (tickOutcome (Except.ok payload0) pushOk = Except.ok ()
          → ∃ pl, (Except.ok payload0 : Except String DisplayPayload) = Except.ok pl
              ∧ pushOk pl = Except.ok ())
      ∧ selectKind rotationSeq (runTicks (List.replicate 5 (Except.ok ())) 0)
          = rotationSeq[5 % rotationSeq.length]?) :=
  ⟨by simp [rotationSeq], by omega,
   rotation_cursor_correct rotationSeq 5 6 5 "boom" (Except.ok payload0)
     pushOk () (by simp [rotationSeq]) (by omega)⟩

/-- C2: on every close list with at least `period + 1` entries and
positive `period`, the code's `calculate_rsi` coincides with the
spec-transcribed Wilder RSI `rsiSpec` (deltas, gain/loss split, simple
mean seed, per-delta Wilder smoothing, 100 on zero average loss, else
`100 - 100/(1 + avgGain/avgLoss)` rounded to two decimals). -/
theorem rsi_refines (closes : List ℚ) (period : ℕ) (hp : 0 < period)
    (hlen : period + 1 ≤ closes.length) :
    rsiSpec closes period = calculate_rsi closes period := by
  have hsm : specSmoothed closes period
      = (wilderAvg period (rsiGains closes), wilderAvg period (rsiLosses closes)) := by
    unfold specSmoothed
    rw [specDeltas_eq_rsiDeltas, foldl_wilder_pair, List.map_take, List.map_take,
      List.map_drop, List.map_drop]
    rfl
  unfold rsiSpec calculate_rsi
  rw [hsm]

/-- Witness for C2 at the close list `[1, 2, 1, 3]` and period 2. -/
theorem rsi_refines_witness :
    0 < 2 ∧ 2 + 1 ≤ [(1 : ℚ), 2, 1, 3].length
    ∧ rsiSpec [(1 : ℚ), 2, 1, 3] 2 = calculate_rsi [(1 : ℚ), 2, 1, 3] 2 :=
  ⟨by norm_num, by simp,
   rsi_refines [(1 : ℚ), 2, 1, 3] 2 (by norm_num) (by simp)⟩

/-- C3: no build or push error escapes the scheduler loop: the caught
tick result of any build-and-push outcome is a plain next index (the
old index on error, its successor on success), and a loop run over any
trace of tick outcomes executes every scheduled tick — the list of
states after each tick has exactly one entry per outcome, so no failure
terminates the loop. -/
theorem tick_errors_contained (outcomes : List (Except String Unit)) (idx : ℕ)
    (b : Except String DisplayPayload) (p : DisplayPayload → Except String Unit) :
    (runLoopStates outcomes idx).length = outcomes.length
    ∧ (caughtTick idx (tickOutcome b p) = idx + 1 ∨ caughtTick idx (tickOutcome b p) = idx) := by
  refine ⟨runLoopStates_length outcomes idx, ?_⟩
  cases b with
  | error e => right; rfl
  | ok pl =>
      cases hpl : p pl with
      | ok u => left; simp [tickOutcome, caughtTick, hpl]
      | error e => right; simp [tickOutcome, caughtTick, hpl]

/-- C4 counterexample: main.py clamps the interval only to a floor of
2 seconds, so a configured interval of 2 yields an effective sleep of
2 seconds — below the claimed ~10-30 second floor. -/
theorem interval_floor_counterexample :
    main_interval_clamp 2 = 2 ∧ (2 : ℤ) < 10 := by decide

/-- C4 amended: each loop clamps the configured interval from below by
a fixed minimum, but the floors differ per file: app.py's loop clamps
to `max c 30` (a floor of 30 seconds, within the claimed range), while
main.py's loop clamps only to `max c 2` (a floor of 2 seconds, below
the claimed ~10-30 second minimum). -/
theorem interval_clamp_amended (c : ℤ) :
    app_interval_clamp c = max c 30 ∧ 30 ≤ app_interval_clamp c
    ∧ main_interval_clamp c = max c 2 ∧ 2 ≤ main_interval_clamp c := by
  unfold app_interval_clamp main_interval_clamp
  refine ⟨?_, ?_, rfl, ?_⟩
  · split <;> omega
  · split <;> omega
  · omega

/-- C5: a price-kind build whose provider response has a null or
missing `lastPrice` parses to an absent price, so the BTC build fails
with the "BTC price missing" error instead of crashing, the sender is
not invoked during that tick, and the rotation index is unchanged. -/
theorem null_price_validation (raw : RawTicker) (rsi4 rsi1 : Option ℚ)
    (push : DisplayPayload → Except String Unit) (idx : ℕ)
    (h : raw.lastPrice = PyVal.null) :
    buildBTC (parse_binance raw rsi4 rsi1) = Except.error "BTC price missing"
    ∧ btcTickRun (parse_binance raw rsi4 rsi1) push idx = (idx, false) := by
  have hp : (parse_binance raw rsi4 rsi1).price = none := by
    simp [parse_binance, h, safe_float, py_float]
  have hb : buildBTC (parse_binance raw rsi4 rsi1) = Except.error "BTC price missing" := by
    unfold buildBTC
    rw [hp]
  refine ⟨hb, ?_⟩
  unfold btcTickRun
  rw [hb]

/-- Witness for C5 at a raw ticker whose `lastPrice` is null, an
always-succeeding sender, and rotation index 7. -/
theorem null_price_validation_witness :
    (RawTicker.mk PyVal.null PyVal.null).lastPrice = PyVal.null
    ∧ (buildBTC (parse_binance (RawTicker.mk PyVal.null PyVal.null) none none)
        = Except.error "BTC price missing"
      ∧ btcTickRun (parse_binance (RawTicker.mk PyVal.null PyVal.null) none none)
          (fun _ => Except.ok ()) 7 = (7, false)) :=
  ⟨rfl, null_price_validation (RawTicker.mk PyVal.null PyVal.null) none none
    (fun _ => Except.ok ()) 7 rfl⟩

/-- C6: with fewer than `period + 1` closes the RSI computation fails
soft and returns `none`; in particular a list of length exactly
`period` (as in the witness) is unavailable. -/
theorem rsi_insufficient (prices : List ℚ) (period : ℕ) (hp : 0 < period)
    (h : prices.length < period + 1) :
    calculate_rsi prices period = none := by
  unfold calculate_rsi
  rw [if_pos h]

/-- Witness for C6 at a list of length exactly equal to the period. -/
theorem rsi_insufficient_witness :
    0 < 2 ∧ [(1 : ℚ), 2].length < 2 + 1 ∧ calculate_rsi [(1 : ℚ), 2] 2 = none :=
  ⟨by norm_num, by simp, rsi_insufficient [(1 : ℚ), 2] 2 (by norm_num) (by simp)⟩

/-- C7: on a strictly increasing close list longer than the period the
RSI is exactly 100 (every loss is 0, so the smoothed average loss stays
0), and on a strictly decreasing close list it is exactly 0 (every gain
is 0, so `rs = 0` and the rounded result is 0). -/
theorem rsi_monotone_extremes (prices : List ℚ) (period : ℕ)
    (hp : 0 < period) (hlen : period < prices.length) :
    (List.Chain' (· < ·) prices → calculate_rsi prices period = some 100)
    ∧ (List.Chain' (· > ·) prices → calculate_rsi prices period = some 0) := by
  have hguard : ¬ prices.length < period + 1 := by omega
  constructor
  · intro hinc
    have hloss0 : wilderAvg period (rsiLosses prices) = 0 := by
      apply wilderAvg_of_all_zero
      intro x hx
      simp only [rsiLosses] at hx
      rcases List.mem_map.mp hx with ⟨d, hd, rfl⟩
      have hd0 : 0 < d := rsiDeltas_pos_of_chain prices hinc d hd
      simp only [lossPart]
      rw [if_neg (by linarith)]
    unfold calculate_rsi
    rw [if_neg hguard, if_pos hloss0]
  · intro hdec
    have hgain0 : wilderAvg period (rsiGains prices) = 0 := by
      apply wilderAvg_of_all_zero
      intro x hx
      simp only [rsiGains] at hx
      rcases List.mem_map.mp hx with ⟨d, hd, rfl⟩
      have hd0 : d < 0 := rsiDeltas_neg_of_chain prices hdec d hd
      simp only [gainPart]
      rw [if_neg (by linarith)]
    have hlpos : 0 < wilderAvg period (rsiLosses prices) := by
      apply wilderAvg_pos period hp
      · rw [rsiLosses, List.length_map, rsiDeltas_length]
        omega
      · intro x hx
        simp only [rsiLosses] at hx
        rcases List.mem_map.mp hx with ⟨d, hd, rfl⟩
        have hd0 : d < 0 := rsiDeltas_neg_of_chain prices hdec d hd
        simp only [lossPart]
        rw [if_pos hd0]
        linarith
    unfold calculate_rsi
    rw [if_neg hguard, if_neg (ne_of_gt hlpos), hgain0, zero_div]
    norm_num [round2, round_zero]

/-- Witness for C7: the increasing list `[1, 2, 3, 4]` gives RSI 100
and the decreasing list `[4, 3, 2, 1]` gives RSI 0 at period 2. -/
theorem rsi_monotone_extremes_witness :
    0 < 2 ∧ 2 < [(1 : ℚ), 2, 3, 4].length
    ∧ calculate_rsi [(1 : ℚ), 2, 3, 4] 2 = some 100
    ∧ calculate_rsi [(4 : ℚ), 3, 2, 1] 2 = some 0 :=
  ⟨by norm_num, by simp,
   (rsi_monotone_extremes [(1 : ℚ), 2, 3, 4] 2 (by norm_num) (by simp)).1
     (by norm_num [List.chain'_cons, List.chain'_singleton]),
   (rsi_monotone_extremes [(4 : ℚ), 3, 2, 1] 2 (by norm_num) (by simp)).2
     (by norm_num [List.chain'_cons, List.chain'_singleton])⟩

/-- C8: the icon-key resolver returns the fallback key "na" whenever
the weather code is absent, and for every code outside the fixed mapped
set, for every combination of the day-only and night flags. -/
theorem icon_unknown_fallback (dayOnly nightVN : Bool) (c : ℤ)
    (h : c ∉ mappedMeteoCodes) :
    meteo_code_to_icon_key none dayOnly nightVN = "na"
    ∧ meteo_code_to_icon_key (some c) dayOnly nightVN = "na" := by
  refine ⟨rfl, ?_⟩
  unfold meteo_code_to_icon_key
  exact iconKeyFor_unmapped c _ h

/-- Witness for C8 at the unknown code 9999 with the night flag set. -/
theorem icon_unknown_fallback_witness :
    ((9999 : ℤ) ∉ mappedMeteoCodes)
    ∧ meteo_code_to_icon_key none false true = "na"
    ∧ meteo_code_to_icon_key (some 9999) false true = "na" := by
  have h : (9999 : ℤ) ∉ mappedMeteoCodes := by decide
  exact ⟨h, icon_unknown_fallback false true 9999 h⟩

/-- C9: with the day-only override enabled the resolver's output is
independent of the wall-clock night flag — two runs with different
night readings agree, and both equal the plain day-variant resolution
of the same code. -/
theorem day_only_independent (code : Option ℤ) (n1 n2 : Bool) :
    meteo_code_to_icon_key code true n1 = meteo_code_to_icon_key code true n2
    ∧ meteo_code_to_icon_key code true n1 = meteo_code_to_icon_key code false false := by
  cases code <;> exact ⟨rfl, rfl⟩

/-- C10: `safe_float` is total at every provider boundary: when
`float(v)` succeeds it returns that float, and when `float(v)` raises
it returns the supplied default — the exception never propagates. -/
theorem safe_float_total (v : PyVal) (d : Option ℚ) :
    (∃ q, py_float v = Except.ok q ∧ safe_float v d = some q)
    ∨ ((∃ e, py_float v = Except.error e) ∧ safe_float v d = d) := by
  cases hfe : py_float v with
  | ok q => exact Or.inl ⟨q, rfl, by simp [safe_float, hfe]⟩
  | error e => exact Or.inr ⟨⟨e, rfl⟩, by simp [safe_float, hfe]⟩
